import Mathlib

/-!
Verification of the ARC-UI-LIB asset-installation workflow (the CLI in the
repository) and of the toast provider component.  The definitions below are a
shallow embedding of the TypeScript source: the file system of the target
project is modelled as a partial map from paths to file contents, the network
as a function from URLs to response bodies, and the interactive prompts as
explicit parameters.  Every definition is translated from the source code.
-/

namespace ArcUI

/-- Output format selected by the user: the "tsx" or "jsx" source variant. -/
inductive Format where
  | tsx
  | jsx
deriving DecidableEq, Repr

/-- Extension string of a format, as it appears in the source's template literals. -/
def Format.ext : Format → String
  | .tsx => "tsx"
  | .jsx => "jsx"

/-- One file entry of a catalog manifest (interface ComponentFile in the source;
interface TemplateFile is textually identical and is shared here). -/
structure ComponentFile where
  filename : String
  url : String
  format : Option Format := none
deriving DecidableEq, Repr

/-- A component manifest (interface ComponentConfig in the source). -/
structure ComponentConfig where
  files : List ComponentFile
  dependencies : List String
  devDependencies : List String
  requiresTailwind : Bool := false
deriving DecidableEq, Repr

/-- A template manifest (interface TemplateConfig in the source). -/
structure TemplateConfig where
  files : List ComponentFile
  dependencies : List String
  devDependencies : List String
  requiresTailwind : Bool := false
  category : Option String := none
deriving DecidableEq, Repr

/-- The button manifest from the source catalog. -/
def buttonConfig : ComponentConfig :=
  { files :=
      [ { filename := "Button.tsx",
          url := "https://raw.githubusercontent.com/arkia1/ARC-UI-LIB/main/components/button/Button.tsx",
          format := some .tsx },
        { filename := "Button.jsx",
          url := "https://raw.githubusercontent.com/arkia1/ARC-UI-LIB/main/components/button/Button.jsx",
          format := some .jsx },
        { filename := "button-animations.css",
          url := "https://raw.githubusercontent.com/arkia1/ARC-UI-LIB/main/components/button/button-animations.css" } ],
    dependencies := ["clsx"],
    devDependencies := [],
    requiresTailwind := true }

/-- The toaster manifest from the source catalog. -/
def toasterConfig : ComponentConfig :=
  { files :=
      [ { filename := "Toaster.jsx",
          url := "https://raw.githubusercontent.com/arkia1/ARC-UI-LIB/main/components/toaster/Toaster.jsx",
          format := some .jsx } ],
    dependencies := ["react-dom"],
    devDependencies := [],
    requiresTailwind := true }

/-- The clientSideErrors template manifest from the source catalog. -/
def clientSideErrorsConfig : TemplateConfig :=
  { files :=
      [ { filename := "ClientSideErrors.tsx",
          url := "https://raw.githubusercontent.com/arkia1/ARC-UI-LIB/main/templates/errors/ClientSideErrors/ClientSideErrors.tsx",
          format := some .tsx },
        { filename := "ClientSideErrors.jsx",
          url := "https://raw.githubusercontent.com/arkia1/ARC-UI-LIB/main/templates/errors/ClientSideErrors/ClientSideErrors.jsx",
          format := some .jsx } ],
    dependencies := [],
    devDependencies := [],
    requiresTailwind := true,
    category := some "errors/4xx" }

/-- The serverSideErrors template manifest from the source catalog. -/
def serverSideErrorsConfig : TemplateConfig :=
  { files :=
      [ { filename := "ServerSideErrors.tsx",
          url := "https://raw.githubusercontent.com/arkia1/ARC-UI-LIB/main/templates/errors/ServerSideErrors/ServerSideErrors.tsx",
          format := some .tsx },
        { filename := "ServerSideErrors.jsx",
          url := "https://raw.githubusercontent.com/arkia1/ARC-UI-LIB/main/templates/errors/ServerSideErrors/ServerSideErrors.jsx",
          format := some .jsx } ],
    dependencies := [],
    devDependencies := [],
    requiresTailwind := true,
    category := some "errors/5xx" }

/-- The static component catalog (const components in the source). -/
def components : List (String × ComponentConfig) :=
  [("button", buttonConfig), ("toaster", toasterConfig)]

/-- The static template catalog (const templates in the source). -/
def templates : List (String × TemplateConfig) :=
  [("clientSideErrors", clientSideErrorsConfig), ("serverSideErrors", serverSideErrorsConfig)]

/-- JavaScript object access components[name] / templates[name] over the static
catalog: the value of the first matching key, undefined (none) otherwise. -/
def catalogLookup {α : Type} (name : String) : List (String × α) → Option α
  | [] => none
  | (k, v) :: rest => if name = k then some v else catalogLookup name rest

/-- The target project's observable file system: a path (relative to the project
root, i.e. process.cwd()) maps to the file's content when the file exists. -/
def FSys : Type := String → Option String

/-- Writing a file (fs.writeFile / fs.appendFile after a read): the path now holds
exactly the given content, every other path is untouched. -/
def FSys.write (fs : FSys) (p content : String) : FSys :=
  fun q => if q = p then some content else fs q

/-- fs.existsSync on the model. -/
def FSys.isFile (fs : FSys) (p : String) : Bool := (fs p).isSome

/-- The empty project directory. -/
def FSys.empty : FSys := fun _ => none

/-- The three supported package managers. -/
inductive PM where
  | yarn
  | pnpm
  | npm
deriving DecidableEq, Repr

/-- Package-manager detection exactly as written inline in setupTailwind
(nested conditional expression over lockfile existence). -/
def setupTailwindPM (fs : FSys) : PM :=
  if (fs "yarn.lock").isSome then .yarn
  else if (fs "pnpm-lock.yaml").isSome then .pnpm
  else .npm

/-- Package-manager detection exactly as written inline in installDependencies
(the duplicated nested conditional over lockfile existence). -/
def installDependenciesPM (fs : FSys) : PM :=
  if (fs "yarn.lock").isSome then .yarn
  else if (fs "pnpm-lock.yaml").isSome then .pnpm
  else .npm

/-- Modelled from the spec (section 4.3 step 1): detect the package manager by
lockfile presence — yarn when yarn.lock exists, otherwise pnpm when
pnpm-lock.yaml exists, otherwise the default manager npm. -/
def specDetectPM (fs : FSys) : PM :=
  if FSys.isFile fs "yarn.lock" then .yarn
  else if FSys.isFile fs "pnpm-lock.yaml" then .pnpm
  else .npm

/-- JavaScript String.prototype.startsWith: the second string is a prefix of
the first, character for character. -/
def jsStartsWith (s pre : String) : Bool :=
  decide (pre.data <+: s.data)

/-- The version acceptance test of checkTailwindSetup (source: isV3 =
version.startsWith("^3") || version.startsWith("~3") || version.startsWith("3")). -/
def isV3 (version : String) : Bool :=
  jsStartsWith version "^3" || jsStartsWith version "~3" || jsStartsWith version "3"

/-- checkTailwindSetup's decision, over the merged dependency map
(the spread of package.json dependencies and devDependencies) and the target
file system.  Mirrors the source's early returns: installed but not v3 fails
first, then missing installation, then missing configuration files. -/
def checkTailwindSetup (deps : String → Option String) (fs : FSys) : Bool :=
  match deps "tailwindcss" with
  | none => false
  | some version =>
      if !(isV3 version) then false
      else FSys.isFile fs "tailwind.config.js" && FSys.isFile fs "postcss.config.js"

/-- Modelled from the spec's words "the required major version 3": the major
version of a version string is its first maximal digit run (after any leading
range sigils such as a caret or tilde); the requirement holds when that run is
exactly the digit 3. -/
def specMajorIs3 (version : String) : Bool :=
  String.mk ((version.data.dropWhile (fun c => !c.isDigit)).takeWhile Char.isDigit) = "3"

/-- Format-based file selection, common to fetchComponent and fetchTemplate:
component.files.filter(file => !file.format || file.format === format). -/
def selectFiles (files : List ComponentFile) (format : Format) : List ComponentFile :=
  files.filter (fun file => file.format = none || file.format = some format)

/-- Hardcoded tailwind.config.js template written by setupTailwind. -/
def tailwindConfigContent : String :=
  "/** @type \x7bimport(\x27tailwindcss\x27).Config\x7d */\nexport default \x7b\n  content: [\n    \"./index.html\",\n    \"./src/**/*.\x7bjs,ts,jsx,tsx\x7d\",\n  ],\n  theme: \x7b\n    extend: \x7b\x7d,\n  \x7d,\n  plugins: [],\n\x7d"

/-- Hardcoded postcss.config.js template written by setupTailwind. -/
def postcssConfigContent : String :=
  "export default \x7b\n  plugins: \x7b\n    tailwindcss: \x7b\x7d,\n    autoprefixer: \x7b\x7d,\n  \x7d,\n\x7d"

/-- The three Tailwind directive lines prepended or written by createTailwindCSSFile. -/
def tailwindDirectives : String :=
  "@tailwind base;\n@tailwind components;\n@tailwind utilities;\n"

/-- Ordered conventional stylesheet locations searched by createTailwindCSSFile. -/
def possibleCssPaths : List String :=
  [ "src/styles/globals.css",
    "src/styles/global.css",
    "src/index.css",
    "src/App.css",
    "styles/globals.css",
    "styles/global.css",
    "css/main.css" ]

/-- Outcome of the entry-stylesheet locator: the first existing conventional path
was updated, or already carried the directives, or no conventional path existed
and a fresh file was created at the interactively supplied path. -/
inductive CssOutcome where
  | updated (p : String)
  | alreadyPresent (p : String)
  | createdAt (p : String)
deriving DecidableEq, Repr

/-- The search loop of createTailwindCSSFile over the conventional paths: for the
first path that exists, return (no-op when the content already includes the
"@tailwind" marker, else prepend the directive lines); otherwise keep searching. -/
def updateExistingCss (fs : FSys) : List String → Option (FSys × CssOutcome)
  | [] => none
  | p :: rest =>
      match fs p with
      | some content =>
          if ("@tailwind" : String).data <:+: content.data then
            some (fs, .alreadyPresent p)
          else
            some (FSys.write fs p (tailwindDirectives ++ content), .updated p)
      | none => updateExistingCss fs rest

/-- createTailwindCSSFile: search the conventional paths; when none exists, ask
the operator for a path (modelled by the promptPath parameter) and write a fresh
file holding just the directive lines there. -/
def createTailwindCSSFile (fs : FSys) (promptPath : String) : FSys × CssOutcome :=
  match updateExistingCss fs possibleCssPaths with
  | some r => r
  | none => (FSys.write fs promptPath tailwindDirectives, .createdAt promptPath)

/-- The pinned install command issued by setupTailwind for each manager. -/
def tailwindInstallCommand : PM → String
  | .npm => "npm install -D tailwindcss@3 postcss autoprefixer"
  | .yarn => "yarn add -D tailwindcss@3 postcss autoprefixer"
  | .pnpm => "pnpm add -D tailwindcss@3 postcss autoprefixer"

/-- setupTailwind's effect on the target file system.  installOk models whether
the synchronous install command exited successfully; on failure the catch block
prints a manual recipe and nothing is written.  On success the two configuration
files are written (with no existence check) and the stylesheet step runs. -/
def setupTailwind (fs : FSys) (installOk : Bool) (promptPath : String) : FSys × Bool :=
  if installOk then
    let fs1 := FSys.write fs "tailwind.config.js" tailwindConfigContent
    let fs2 := FSys.write fs1 "postcss.config.js" postcssConfigContent
    ((createTailwindCSSFile fs2 promptPath).1, true)
  else (fs, false)

/-- deps.join(" ") as used when building the install command. -/
def joinSpace : List String → String
  | [] => ""
  | [d] => d
  | d :: rest => d ++ " " ++ joinSpace rest

/-- The single install command built by installDependencies for the detected
manager (note the source's template literal leaves a double space when the dev
flag is absent; the model reproduces the literal text). -/
def installCommand (pm : PM) (deps : List String) (dev : Bool) : String :=
  match pm with
  | .npm => "npm install " ++ (if dev then "--save-dev" else "") ++ " " ++ joinSpace deps
  | .yarn => "yarn add " ++ (if dev then "--dev" else "") ++ " " ++ joinSpace deps
  | .pnpm => "pnpm add " ++ (if dev then "--save-dev" else "") ++ " " ++ joinSpace deps

/-- The dev-install flag each manager's command line uses. -/
def devFlag : PM → String
  | .npm => "--save-dev"
  | .yarn => "--dev"
  | .pnpm => "--save-dev"

/-- installDependencies: returns early on an empty list (no detection, no shell
command, no output); otherwise detects the manager and issues exactly one shell
command.  The returned value is the single invocation, none meaning no shell
invocation at all. -/
def installDependencies (deps : List String) (dev : Bool) (fs : FSys) : Option (PM × String) :=
  if deps.length = 0 then none
  else
    let pm := installDependenciesPM fs
    some (pm, installCommand pm deps dev)

/-- componentName.charAt(0).toUpperCase() + componentName.slice(1). -/
def capitalize (s : String) : String :=
  match s.data with
  | [] => ""
  | c :: rest => String.mk (c.toUpper :: rest)

/-- Extension of the generated barrel file: .ts for tsx output, .js for jsx. -/
def indexExt : Format → String
  | .tsx => "ts"
  | .jsx => "js"

/-- Path of the generated barrel file inside the target directory. -/
def indexPath (targetDir : String) (format : Format) : String :=
  targetDir ++ "/index." ++ indexExt format

/-- The canonical export line fetchComponent appends for a component. -/
def componentExportLine (componentName : String) (format : Format) : String :=
  let cap := capitalize componentName
  "export \x7b default as " ++ cap ++ " \x7d from \x27./" ++ componentName ++ "/" ++
    cap ++ "." ++ format.ext ++ "\x27;" ++ "\n"

/-- filename.split(".")[0]: the text of a filename before its first dot (the
first segment of the split is exactly the characters preceding the first dot,
the whole string when no dot occurs). -/
def classNameOfFilename (filename : String) : String :=
  String.mk (filename.data.takeWhile (fun c => c ≠ '.'))

/-- The canonical export line fetchTemplate appends, whose exported symbol is
derived from the first downloaded file's name. -/
def templateExportLine (templateName className : String) (format : Format) : String :=
  "export \x7b default as " ++ className ++ " \x7d from \x27./" ++ templateName ++ "/" ++
    className ++ "." ++ format.ext ++ "\x27;" ++ "\n"

/-- The index-update step shared by fetchComponent and fetchTemplate: create the
barrel file empty when absent, read it, and append the export line only when the
exact line is not already a substring of the content.  The boolean reports
whether an append write was performed. -/
def updateIndexFS (fs : FSys) (targetDir : String) (format : Format) (line : String) :
    FSys × Bool :=
  let p := indexPath targetDir format
  let fs1 := if (fs p).isSome then fs else FSys.write fs p ""
  let content := (fs1 p).getD ""
  if line.data <:+: content.data then (fs1, false)
  else (FSys.write fs1 p (content ++ line), true)

/-- Result of one fetchComponent / fetchTemplate run: the final file system, the
catalog-lookup outcome, the shell commands issued, the URLs downloaded, and
whether the run would throw (template first-file access on an empty list). -/
structure FetchResult where
  fs : FSys
  found : Bool
  commands : List String
  downloads : List String
  crashed : Bool := false

/-- fetchComponent's effect: lookup, optional Tailwind check/provision (the
operator confirmation and install success are explicit parameters), format
filtering, per-file download and write, dependency installs, index update. -/
def fetchComponentFS (componentName targetDir : String) (format : Format)
    (remote : String → String) (deps : String → Option String)
    (confirmSetup installOk : Bool) (promptPath : String) (fs : FSys) : FetchResult :=
  match catalogLookup componentName components with
  | none => { fs := fs, found := false, commands := [], downloads := [] }
  | some component =>
      let setupRuns := component.requiresTailwind && !(checkTailwindSetup deps fs) && confirmSetup
      let fs1 := if setupRuns then (setupTailwind fs installOk promptPath).1 else fs
      let setupCmds := if setupRuns then [tailwindInstallCommand (setupTailwindPM fs)] else []
      let componentDir := targetDir ++ "/" ++ componentName
      let filesToDownload := selectFiles component.files format
      let fs2 := filesToDownload.foldl
        (fun acc file => FSys.write acc (componentDir ++ "/" ++ file.filename) (remote file.url)) fs1
      let cmd1 := installDependencies component.dependencies false fs2
      let cmd2 := installDependencies component.devDependencies true fs2
      let line := componentExportLine componentName format
      let fs3 := (updateIndexFS fs2 targetDir format line).1
      { fs := fs3, found := true,
        commands := setupCmds ++ (cmd1.toList.map Prod.snd) ++ (cmd2.toList.map Prod.snd),
        downloads := filesToDownload.map ComponentFile.url }

/-- fetchTemplate's effect: as fetchComponent, except that the exported symbol
name is taken from the first format-filtered file's name; when that list is
empty the source's index [0] access throws, modelled by the crashed flag. -/
def fetchTemplateFS (templateName targetDir : String) (format : Format)
    (remote : String → String) (deps : String → Option String)
    (confirmSetup installOk : Bool) (promptPath : String) (fs : FSys) : FetchResult :=
  match catalogLookup templateName templates with
  | none => { fs := fs, found := false, commands := [], downloads := [] }
  | some template =>
      let setupRuns := template.requiresTailwind && !(checkTailwindSetup deps fs) && confirmSetup
      let fs1 := if setupRuns then (setupTailwind fs installOk promptPath).1 else fs
      let setupCmds := if setupRuns then [tailwindInstallCommand (setupTailwindPM fs)] else []
      let templateDir := targetDir ++ "/" ++ templateName
      let filesToDownload := selectFiles template.files format
      let fs2 := filesToDownload.foldl
        (fun acc file => FSys.write acc (templateDir ++ "/" ++ file.filename) (remote file.url)) fs1
      let cmd1 := installDependencies template.dependencies false fs2
      let cmd2 := installDependencies template.devDependencies true fs2
      match filesToDownload.head? with
      | none =>
          { fs := fs2, found := true,
            commands := setupCmds ++ (cmd1.toList.map Prod.snd) ++ (cmd2.toList.map Prod.snd),
            downloads := filesToDownload.map ComponentFile.url,
            crashed := true }
      | some firstFile =>
          let className := classNameOfFilename firstFile.filename
          let line := templateExportLine templateName className format
          let fs3 := (updateIndexFS fs2 targetDir format line).1
          { fs := fs3, found := true,
            commands := setupCmds ++ (cmd1.toList.map Prod.snd) ++ (cmd2.toList.map Prod.snd),
            downloads := filesToDownload.map ComponentFile.url }

/-- Number of (possibly overlapping) occurrences of pat in s: the number of
suffix positions of s at which pat is a prefix. -/
def countOccs (pat : List Char) : List Char → Nat
  | [] => if pat <+: ([] : List Char) then 1 else 0
  | a :: s => (if pat <+: a :: s then 1 else 0) + countOccs pat s

/-- pat has no proper border: no nonempty proper suffix of pat is also a prefix
of pat (equivalently, pat has no period shorter than its length).  This rules
out occurrences of pat that straddle the boundary of an append s ++ pat. -/
def noProperBorder (pat : List Char) : Prop :=
  ∀ d ∈ List.range pat.length, d = 0 ∨ pat.drop d ≠ pat.take (pat.length - d)

/-- A toast's data as held in the provider's queue (ToastOptions in the source;
the fields not inspected by the reducer or the render path are omitted). -/
structure ToastOptions where
  id : String
  message : String
deriving DecidableEq, Repr

/-- Actions dispatched to the toast reducer. -/
inductive ToastAction where
  | addToast (t : ToastOptions)
  | removeToast (id : String)
deriving DecidableEq, Repr

/-- toastReducer: ADD_TOAST appends at the end ([...state, payload]); REMOVE_TOAST
filters out the toast with the given id. -/
def toastReducer (state : List ToastOptions) : ToastAction → List ToastOptions
  | .addToast t => state ++ [t]
  | .removeToast id => state.filter (fun toast => toast.id != id)

/-- The provider's queue after a sequence of dispatches, starting from the
reducer's initial state []. -/
def runToasts (actions : List ToastAction) : List ToastOptions :=
  actions.foldl toastReducer []

/-- visibleToasts = toasts.slice(0, maxToasts): the rendered prefix of the queue
(maxToasts defaults to 5 in the source). -/
def visibleToasts (toasts : List ToastOptions) (maxToasts : Nat) : List ToastOptions :=
  toasts.take maxToasts

/-- The toasts added by a sequence of actions, in dispatch order. -/
def addedToasts (actions : List ToastAction) : List ToastOptions :=
  actions.filterMap (fun a =>
    match a with
    | .addToast t => some t
    | .removeToast _ => none)

/-- The exported symbol computed by fetchTemplate: the first format-filtered
file's name up to its first dot (className = filesToDownload[0].filename.split(".")[0]);
none models the thrown index error when the filtered list is empty. -/
def templateExportedSymbol (t : TemplateConfig) (format : Format) : Option String :=
  (selectFiles t.files format).head?.map (fun f => classNameOfFilename f.filename)

/-- A merged dependency map holding tailwindcss at version 30.0.0 (major
version 30, not the required 3). -/
def deps30 : String → Option String :=
  fun n => if n = "tailwindcss" then some "30.0.0" else none

/-- A project that already carries both Tailwind configuration files. -/
def configuredFS : FSys := fun p =>
  if p = "tailwind.config.js" then some "cfg"
  else if p = "postcss.config.js" then some "cfg" else none

/-- A project whose tailwind.config.js already exists with distinctive content. -/
def fsWithOldConfig : FSys :=
  fun p => if p = "tailwind.config.js" then some "OLD" else none

instance (pat : List Char) : Decidable (noProperBorder pat) := by
  unfold noProperBorder
  exact List.decidableBAll _ _

/-- A project whose only file of interest is an existing conventional stylesheet
without the directive marker. -/
def cssProjectFS : FSys :=
  fun p => if p = "src/index.css" then some "body \x7b\x7d" else none

end ArcUI

namespace ArcUI

/-! Helper lemmas shared by the claim theorems. -/

theorem catalogLookup_mem {α : Type} {name : String} {v : α} :
    ∀ {cat : List (String × α)}, catalogLookup name cat = some v → v ∈ cat.map Prod.snd := by
  intro cat
  induction cat with
  | nil => intro h; simp [catalogLookup] at h
  | cons kv rest ih =>
      intro h
      obtain ⟨k, w⟩ := kv
      simp only [catalogLookup] at h
      split at h
      · simp [Option.some.inj h]
      · simp [ih h]

theorem updateExistingCss_eq_none (fs : FSys) :
    ∀ ps : List String, updateExistingCss fs ps = none ↔ ∀ p ∈ ps, fs p = none := by
  intro ps
  induction ps with
  | nil => simp [updateExistingCss]
  | cons p rest ih =>
      cases hp : fs p with
      | none => simp [updateExistingCss, hp, ih]
      | some content =>
          simp only [updateExistingCss, hp]
          constructor
          · intro h
            split at h <;> exact Option.noConfusion h
          · intro h
            have h2 := h p (by simp)
            rw [hp] at h2
            cases h2

theorem updateExistingCss_first (fs : FSys) :
    ∀ (ps : List String) (p : String) (content : String),
      ps.find? (fun q => (fs q).isSome) = some p → fs p = some content →
      updateExistingCss fs ps =
        (if ("@tailwind" : String).data <:+: content.data then some (fs, CssOutcome.alreadyPresent p)
         else some (FSys.write fs p (tailwindDirectives ++ content), CssOutcome.updated p)) := by
  intro ps
  induction ps with
  | nil => intro p c h; simp at h
  | cons q rest ih =>
      intro p c hfind hp
      by_cases hq : (fs q).isSome
      · rw [List.find?_cons_of_pos _ (by simpa using hq)] at hfind
        obtain rfl : q = p := by simpa using hfind
        simp only [updateExistingCss, hp]
      · rw [List.find?_cons_of_neg _ (by simpa using hq)] at hfind
        have hqnone : fs q = none := by
          cases h : fs q with
          | none => rfl
          | some _ => exact absurd (by simp [h]) hq
        simp only [updateExistingCss, hqnone]
        exact ih p c hfind hp

theorem updateExistingCss_not_created (fs : FSys) :
    ∀ (ps : List String) (r : FSys × CssOutcome), updateExistingCss fs ps = some r →
      ∀ q, r.2 ≠ CssOutcome.createdAt q := by
  intro ps
  induction ps with
  | nil => intro r h; simp [updateExistingCss] at h
  | cons p rest ih =>
      intro r h q
      cases hp : fs p with
      | none =>
          simp only [updateExistingCss, hp] at h
          exact ih r h q
      | some content =>
          simp only [updateExistingCss, hp] at h
          split at h <;> (cases h; simp)

theorem updateExistingCss_preserves (fs : FSys) :
    ∀ (ps : List String) (r : FSys × CssOutcome), updateExistingCss fs ps = some r →
      ∀ q, q ∉ ps → r.1 q = fs q := by
  intro ps
  induction ps with
  | nil => intro r h; simp [updateExistingCss] at h
  | cons p rest ih =>
      intro r h q hq
      have hq1 : q ≠ p := by intro hh; exact hq (by simp [hh])
      have hq2 : q ∉ rest := by intro hh; exact hq (by simp [hh])
      cases hp : fs p with
      | none =>
          simp only [updateExistingCss, hp] at h
          exact ih r h q hq2
      | some content =>
          simp only [updateExistingCss, hp] at h
          split at h <;> cases h <;> simp [FSys.write, hq1]

theorem createTailwindCSSFile_preserves (fs : FSys) (promptPath q : String)
    (h1 : q ∉ possibleCssPaths) (h2 : q ≠ promptPath) :
    (createTailwindCSSFile fs promptPath).1 q = fs q := by
  unfold createTailwindCSSFile
  cases hm : updateExistingCss fs possibleCssPaths with
  | some r => exact updateExistingCss_preserves fs possibleCssPaths r hm q h1
  | none => simp [FSys.write, h2]

theorem infix_of_infix_append {l t : List Char} (s : List Char) (h : l <:+: t) :
    l <:+: s ++ t := by
  obtain ⟨u, v, rfl⟩ := h
  exact ⟨s ++ u, v, by simp⟩

theorem mem_data_infix_joinSpace :
    ∀ (deps : List String) (d : String), d ∈ deps → d.data <:+: (joinSpace deps).data := by
  intro deps
  induction deps with
  | nil => intro d h; simp at h
  | cons x rest ih =>
      intro d h
      cases rest with
      | nil =>
          simp at h
          subst h
          exact List.infix_refl _
      | cons y rest2 =>
          rcases List.mem_cons.mp h with h1 | h1
          · subst h1
            refine ⟨[], (" " ++ joinSpace (y :: rest2)).data, ?_⟩
            simp [joinSpace, String.data_append]
          · have hj := ih d h1
            have hdata : (joinSpace (x :: y :: rest2)).data =
                (x ++ " ").data ++ (joinSpace (y :: rest2)).data := by
              simp [joinSpace, String.data_append]
            rw [hdata]
            exact infix_of_infix_append _ hj

theorem installCommand_data (pm : PM) (deps : List String) (dev : Bool) :
    ∃ pre : List Char,
      (installCommand pm deps dev).data = pre ++ (joinSpace deps).data ∧
      (dev = true → ∃ s t, pre = s ++ (devFlag pm).data ++ t) := by
  cases pm <;> cases dev
  case yarn.true =>
      refine ⟨("yarn add " ++ "--dev" ++ " ").data,
        by simp [installCommand, String.data_append], ?_⟩
      intro
      exact ⟨"yarn add ".data, " ".data, by simp [devFlag, String.data_append]⟩
  case yarn.false =>
      exact ⟨("yarn add " ++ "" ++ " ").data, by simp [installCommand, String.data_append],
        by intro h; cases h⟩
  case pnpm.true =>
      refine ⟨("pnpm add " ++ "--save-dev" ++ " ").data,
        by simp [installCommand, String.data_append], ?_⟩
      intro
      exact ⟨"pnpm add ".data, " ".data, by simp [devFlag, String.data_append]⟩
  case pnpm.false =>
      exact ⟨("pnpm add " ++ "" ++ " ").data, by simp [installCommand, String.data_append],
        by intro h; cases h⟩
  case npm.true =>
      refine ⟨("npm install " ++ "--save-dev" ++ " ").data,
        by simp [installCommand, String.data_append], ?_⟩
      intro
      exact ⟨"npm install ".data, " ".data, by simp [devFlag, String.data_append]⟩
  case npm.false =>
      exact ⟨("npm install " ++ "" ++ " ").data, by simp [installCommand, String.data_append],
        by intro h; cases h⟩

theorem toNat_ofNat_valid {n : Nat} (h : n.isValidChar) : (Char.ofNat n).toNat = n := by
  rw [Char.ofNat, dif_pos h]
  rfl

theorem toUpper_eq_newline {c : Char} (h : c.toUpper = '\n') : c = '\n' := by
  unfold Char.toUpper at h
  dsimp only at h
  split at h
  · rename_i hl
    exfalso
    obtain ⟨h1, h2⟩ := hl
    have hv : (c.toNat - 32).isValidChar := by
      unfold Nat.isValidChar
      left
      omega
    have h3 := congrArg Char.toNat h
    rw [toNat_ofNat_valid hv] at h3
    have h10 : Char.toNat '\n' = 10 := rfl
    omega
  · exact h

end ArcUI

namespace ArcUI

theorem countOccs_eq_zero_of_short {pat : List Char} :
    ∀ {s : List Char}, s.length < pat.length → countOccs pat s = 0 := by
  intro s
  induction s with
  | nil =>
      intro h
      unfold countOccs
      rw [if_neg]
      intro hp
      have h2 := List.IsPrefix.length_le hp
      simp only [List.length_nil] at h h2
      omega
  | cons a s ih =>
      intro h
      unfold countOccs
      rw [if_neg, ih (by simp at h ⊢; omega)]
      intro hp
      have h2 := List.IsPrefix.length_le hp
      simp only [List.length_cons] at h h2
      omega

theorem countOccs_eq_zero_of_not_infix {pat : List Char} :
    ∀ {s : List Char}, ¬ pat <:+: s → countOccs pat s = 0 := by
  intro s
  induction s with
  | nil =>
      intro h
      unfold countOccs
      rw [if_neg (fun hp => h ( List.IsPrefix.isInfix hp))]
  | cons a s ih =>
      intro h
      unfold countOccs
      rw [if_neg (fun hp => h ( List.IsPrefix.isInfix hp)),
        ih (fun hi => h ( List.infix_cons hi))]

theorem not_prefix_append {pat s : List Char} (hnb : noProperBorder pat)
    (hni : ¬ pat <:+: s) (hs : s ≠ []) : ¬ pat <+: s ++ pat := by
  intro hp
  by_cases hlen : pat.length ≤ s.length
  · have hps : pat <+: s := ( List.isPrefix_append_of_length hlen).mp hp
    exact hni ( List.IsPrefix.isInfix hps)
  · push_neg at hlen
    have hd0 : 0 < s.length := List.length_pos.mpr hs
    have h1 : pat.drop s.length <+: (s ++ pat).drop s.length := List.IsPrefix.drop hp s.length
    have h2 : (s ++ pat).drop s.length = pat := by
      simp
    rw [h2] at h1
    have h3 : pat.drop s.length = pat.take (pat.length - s.length) := by
      have h4 := List.prefix_iff_eq_take.mp h1
      simpa using h4
    have h5 := hnb s.length (List.mem_range.mpr hlen)
    rcases h5 with h6 | h6
    · omega
    · exact h6 h3

theorem countOccs_append_self {pat : List Char} (hpat : pat ≠ []) (hnb : noProperBorder pat) :
    ∀ {s : List Char}, ¬ pat <:+: s → countOccs pat (s ++ pat) = 1 := by
  intro s
  induction s with
  | nil =>
      intro _
      cases pat with
      | nil => exact absurd rfl hpat
      | cons p pt =>
          show countOccs (p :: pt) (p :: pt) = 1
          unfold countOccs
          rw [if_pos (List.prefix_refl _), countOccs_eq_zero_of_short (by simp)]
  | cons a s ih =>
      intro hni
      have hni2 : ¬ pat <:+: s := fun hi => hni ( List.infix_cons hi)
      show countOccs pat (a :: (s ++ pat)) = 1
      unfold countOccs
      rw [if_neg, ih hni2]
      exact not_prefix_append hnb hni (by simp)

theorem noProperBorder_concat {l : List Char} {c : Char} (hc : c ∉ l) :
    noProperBorder (l ++ [c]) := by
  intro d hd
  by_cases hd0 : d = 0
  · exact Or.inl hd0
  · right
    intro heq
    apply hc
    have hdr : d < (l ++ [c]).length := List.mem_range.mp hd
    have hdl : d ≤ l.length := by simp at hdr; omega
    have h1 : (l ++ [c]).drop d = l.drop d ++ [c] := List.drop_append_of_le_length hdl
    have hk : (l ++ [c]).length - d ≤ l.length := by simp; omega
    have h2 : (l ++ [c]).take ((l ++ [c]).length - d) = l.take ((l ++ [c]).length - d) :=
      List.take_append_of_le_length hk
    have hcmem : c ∈ (l ++ [c]).drop d := by
      rw [h1]
      simp
    rw [heq, h2] at hcmem
    exact List.take_subset _ _ hcmem

theorem newline_not_mem_capitalize {name : String} (h : ('\n' : Char) ∉ name.data) :
    ('\n' : Char) ∉ (capitalize name).data := by
  unfold capitalize
  cases hn : name.data with
  | nil => simp
  | cons c rest =>
      rw [hn] at h
      intro hmem
      simp only [String.data] at hmem
      rcases List.mem_cons.mp hmem with h1 | h1
      · refine h ?_
        rw [show c = '\n' from toUpper_eq_newline h1.symm]
        exact List.mem_cons_self _ _
      · exact h (List.mem_cons_of_mem _ h1)

theorem componentExportLine_data (name : String) (format : Format)
    (h : ('\n' : Char) ∉ name.data) :
    ∃ l : List Char, (componentExportLine name format).data = l ++ ['\n'] ∧
      ('\n' : Char) ∉ l := by
  have hcap := newline_not_mem_capitalize h
  refine ⟨("export \x7b default as " ++ capitalize name ++ " \x7d from \x27./" ++ name ++ "/" ++
    capitalize name ++ "." ++ format.ext ++ "\x27;").data, ?_, ?_⟩
  · unfold componentExportLine
    rw [String.data_append]
  · cases format <;>
    · simp only [String.data_append, List.mem_append, not_or]
      exact ⟨⟨⟨⟨⟨⟨⟨⟨by decide, hcap⟩, by decide⟩, h⟩, by decide⟩, hcap⟩, by decide⟩,
        by decide⟩, by decide⟩

theorem templateExportLine_data (templateName className : String) (format : Format)
    (h1 : ('\n' : Char) ∉ templateName.data) (h2 : ('\n' : Char) ∉ className.data) :
    ∃ l : List Char, (templateExportLine templateName className format).data = l ++ ['\n'] ∧
      ('\n' : Char) ∉ l := by
  refine ⟨("export \x7b default as " ++ className ++ " \x7d from \x27./" ++ templateName ++ "/" ++
    className ++ "." ++ format.ext ++ "\x27;").data, ?_, ?_⟩
  · unfold templateExportLine
    rw [String.data_append]
  · cases format <;>
    · simp only [String.data_append, List.mem_append, not_or]
      exact ⟨⟨⟨⟨⟨⟨⟨⟨by decide, h2⟩, by decide⟩, h1⟩, by decide⟩, h2⟩, by decide⟩,
        by decide⟩, by decide⟩

theorem updateIndexFS_appends (fs : FSys) (targetDir : String) (format : Format) (line : String)
    (hline : ¬ line.data <:+: ((fs (indexPath targetDir format)).getD "").data) :
    (updateIndexFS fs targetDir format line).2 = true ∧
    (updateIndexFS fs targetDir format line).1 (indexPath targetDir format) =
      some (((fs (indexPath targetDir format)).getD "") ++ line) := by
  unfold updateIndexFS
  by_cases hfp : (fs (indexPath targetDir format)).isSome
  · simp only [hfp, if_true]
    rw [if_neg hline]
    exact ⟨rfl, by simp [FSys.write]⟩
  · simp only [hfp, Bool.false_eq_true, if_false]
    have hnone : fs (indexPath targetDir format) = none := by
      cases hx : fs (indexPath targetDir format) with
      | none => rfl
      | some _ => rw [hx] at hfp; exact absurd rfl hfp
    rw [hnone] at hline ⊢
    have hwp : FSys.write fs (indexPath targetDir format) "" (indexPath targetDir format) =
        some "" := by simp [FSys.write]
    rw [hwp]
    simp only [Option.getD_some]
    rw [if_neg (by simpa using hline)]
    exact ⟨rfl, by simp [FSys.write]⟩

theorem updateIndexFS_noop (fs : FSys) (targetDir : String) (format : Format) (line : String)
    (hsome : (fs (indexPath targetDir format)).isSome)
    (hline : line.data <:+: ((fs (indexPath targetDir format)).getD "").data) :
    updateIndexFS fs targetDir format line = (fs, false) := by
  unfold updateIndexFS
  simp only [hsome, if_true]
  rw [if_pos hline]

theorem updateIndexFS_twice (fs : FSys) (targetDir : String) (format : Format) (line : String)
    (hne : line.data ≠ []) (hnb : noProperBorder line.data)
    (hinit : ¬ line.data <:+: ((fs (indexPath targetDir format)).getD "").data) :
    (updateIndexFS fs targetDir format line).2 = true ∧
    updateIndexFS (updateIndexFS fs targetDir format line).1 targetDir format line =
      ((updateIndexFS fs targetDir format line).1, false) ∧
    countOccs line.data
      (((updateIndexFS fs targetDir format line).1 (indexPath targetDir format)).getD "").data
      = 1 := by
  obtain ⟨hw, hp⟩ := updateIndexFS_appends fs targetDir format line hinit
  set content := (fs (indexPath targetDir format)).getD "" with hcontent
  have hdata : ((content ++ line) : String).data = content.data ++ line.data :=
    String.data_append _ _
  have hinfix : line.data <:+: (content ++ line).data := by
    rw [hdata]
    exact ⟨content.data, [], by simp⟩
  refine ⟨hw, ?_, ?_⟩
  · refine updateIndexFS_noop _ targetDir format line ?_ ?_
    · rw [hp]
      rfl
    · rw [hp]
      simpa using hinfix
  · rw [hp]
    simp only [Option.getD_some]
    rw [hdata]
    exact countOccs_append_self hne hnb hinit

theorem runToasts_sublist_aux (actions : List ToastAction) :
    ∀ s : List ToastOptions,
      List.Sublist (actions.foldl toastReducer s) (s ++ addedToasts actions) := by
  induction actions with
  | nil => intro s; simp [addedToasts]
  | cons a rest ih =>
      intro s
      cases a with
      | addToast t =>
          have h := ih (s ++ [t])
          simp only [List.foldl_cons, toastReducer, addedToasts, List.filterMap_cons] at h ⊢
          simpa using h
      | removeToast id =>
          have h := ih (s.filter (fun toast => toast.id != id))
          simp only [List.foldl_cons, toastReducer, addedToasts, List.filterMap_cons] at h ⊢
          refine h.trans (List.Sublist.append_right ?_ _)
          exact List.filter_sublist _

end ArcUI

namespace ArcUI

/-! Claim theorems. -/

/-- C1: Index-append idempotence.  For every target directory, item name and
output format whose generated export line is not yet in the barrel file,
running the index-update step appends once, and running it again with identical
arguments reads the current content, finds the exact line already a substring,
performs no write (the file system is returned unchanged with the written flag
false), and the file holds exactly one occurrence of the export line.  Both the
component and the template variants of the step are covered. -/
theorem index_append_idempotent (targetDir itemName className : String) (format : Format)
    (fs : FSys)
    (hitem : ('\n' : Char) ∉ itemName.data)
    (hclass : ('\n' : Char) ∉ className.data) :
    (¬ (componentExportLine itemName format).data <:+:
        ((fs (indexPath targetDir format)).getD "").data →
      (updateIndexFS fs targetDir format (componentExportLine itemName format)).2 = true ∧
      updateIndexFS (updateIndexFS fs targetDir format (componentExportLine itemName format)).1
          targetDir format (componentExportLine itemName format) =
        ((updateIndexFS fs targetDir format (componentExportLine itemName format)).1, false) ∧
      countOccs (componentExportLine itemName format).data
        (((updateIndexFS fs targetDir format (componentExportLine itemName format)).1
            (indexPath targetDir format)).getD "").data = 1) ∧
    (¬ (templateExportLine itemName className format).data <:+:
        ((fs (indexPath targetDir format)).getD "").data →
      (updateIndexFS fs targetDir format (templateExportLine itemName className format)).2
        = true ∧
      updateIndexFS
          (updateIndexFS fs targetDir format (templateExportLine itemName className format)).1
          targetDir format (templateExportLine itemName className format) =
        ((updateIndexFS fs targetDir format (templateExportLine itemName className format)).1,
          false) ∧
      countOccs (templateExportLine itemName className format).data
        (((updateIndexFS fs targetDir format
              (templateExportLine itemName className format)).1
            (indexPath targetDir format)).getD "").data = 1) := by
  constructor
  · intro hinit
    obtain ⟨l, hl, hlnl⟩ := componentExportLine_data itemName format hitem
    refine updateIndexFS_twice fs targetDir format _ ?_ ?_ hinit
    · rw [hl]
      simp
    · rw [hl]
      exact noProperBorder_concat hlnl
  · intro hinit
    obtain ⟨l, hl, hlnl⟩ := templateExportLine_data itemName className format hitem hclass
    refine updateIndexFS_twice fs targetDir format _ ?_ ?_ hinit
    · rw [hl]
      simp
    · rw [hl]
      exact noProperBorder_concat hlnl

/-- Witness for C1: the button export line on an empty project. -/
theorem index_append_idempotent_witness :
    (updateIndexFS FSys.empty "src/components" Format.tsx
        (componentExportLine "button" Format.tsx)).2 = true ∧
    updateIndexFS
        (updateIndexFS FSys.empty "src/components" Format.tsx
          (componentExportLine "button" Format.tsx)).1 "src/components" Format.tsx
        (componentExportLine "button" Format.tsx) =
      ((updateIndexFS FSys.empty "src/components" Format.tsx
          (componentExportLine "button" Format.tsx)).1, false) ∧
    countOccs (componentExportLine "button" Format.tsx).data
      (((updateIndexFS FSys.empty "src/components" Format.tsx
            (componentExportLine "button" Format.tsx)).1
          (indexPath "src/components" Format.tsx)).getD "").data = 1 :=
  (index_append_idempotent "src/components" "button" "ClientSideErrors" Format.tsx FSys.empty
    (by decide) (by decide)).1 (by decide)

/-- C2: Format filtering is exhaustive and exclusive.  A manifest file is
selected exactly when its format tag is absent or equals the requested format,
and the selection preserves multiplicity: matching files keep their full count
(each included exactly once per occurrence), files tagged with the other format
have count zero. -/
theorem format_filter_exhaustive_exclusive (files : List ComponentFile) (format : Format)
    (f : ComponentFile) :
    (f ∈ selectFiles files format ↔ f ∈ files ∧ (f.format = none ∨ f.format = some format)) ∧
    ((selectFiles files format).count f =
      if f.format = none ∨ f.format = some format then files.count f else 0) := by
  constructor
  · simp [selectFiles, List.mem_filter]
  · unfold selectFiles
    split
    · rename_i h
      apply List.count_filter
      simpa using h
    · rename_i h
      simp only [List.count_eq_zero]
      intro hmem
      rw [List.mem_filter] at hmem
      exact h (by simpa using hmem.2)

/-- Counterexample for C3: a project whose tailwind.config.js already exists
with content "OLD"; after the provisioning path runs (install succeeding), that
file's content is the hardcoded template, not "OLD" — the existing file is
overwritten, contradicting the claim that it is left unchanged. -/
theorem setupTailwind_overwrites_existing_config :
    fsWithOldConfig "tailwind.config.js" = some "OLD" ∧
    (setupTailwind fsWithOldConfig true "src/styles/global.css").1 "tailwind.config.js" =
      some tailwindConfigContent ∧
    tailwindConfigContent ≠ "OLD" := by
  refine ⟨rfl, ?_, by decide⟩
  simp only [setupTailwind, if_true]
  rw [createTailwindCSSFile_preserves _ _ _ (by decide) (by decide)]
  simp [FSys.write]

/-- C3 amended: when the provisioning install succeeds, setupTailwind writes
tailwind.config.js and postcss.config.js unconditionally with the fixed
hardcoded contents, overwriting any existing content (no absence check, no
merge); when the install fails, nothing is written. -/
theorem setupTailwind_writes_fixed_configs (fs : FSys) (promptPath : String)
    (h1 : promptPath ≠ "tailwind.config.js") (h2 : promptPath ≠ "postcss.config.js") :
    (setupTailwind fs true promptPath).1 "tailwind.config.js" = some tailwindConfigContent ∧
    (setupTailwind fs true promptPath).1 "postcss.config.js" = some postcssConfigContent ∧
    (setupTailwind fs false promptPath).1 = fs := by
  refine ⟨?_, ?_, rfl⟩
  · simp only [setupTailwind, if_true]
    rw [createTailwindCSSFile_preserves _ _ _ (by decide) (fun hh => h1 hh.symm)]
    simp [FSys.write]
  · simp only [setupTailwind, if_true]
    rw [createTailwindCSSFile_preserves _ _ _ (by decide) (fun hh => h2 hh.symm)]
    simp [FSys.write]

/-- Witness for the amended C3 on an empty project. -/
theorem setupTailwind_writes_fixed_configs_witness :
    (setupTailwind FSys.empty true "src/styles/global.css").1 "tailwind.config.js" =
      some tailwindConfigContent ∧
    (setupTailwind FSys.empty true "src/styles/global.css").1 "postcss.config.js" =
      some postcssConfigContent ∧
    (setupTailwind FSys.empty false "src/styles/global.css").1 = FSys.empty :=
  setupTailwind_writes_fixed_configs FSys.empty "src/styles/global.css" (by decide) (by decide)

/-- Counterexample for C4: tailwindcss at version "30.0.0" has major version 30,
not the required 3, yet with both configuration files present the check returns
satisfied, because the source tests version.startsWith("3"). -/
theorem checkTailwindSetup_accepts_major_30 :
    deps30 "tailwindcss" = some "30.0.0" ∧
    specMajorIs3 "30.0.0" = false ∧
    FSys.isFile configuredFS "tailwind.config.js" = true ∧
    FSys.isFile configuredFS "postcss.config.js" = true ∧
    checkTailwindSetup deps30 configuredFS = true := by
  exact ⟨rfl, by decide, rfl, rfl, by decide⟩

/-- C4 amended: the check is prefix-sensitive, not major-version-sensitive: it
returns unsatisfied whenever the merged dependency map lacks tailwindcss,
whenever the recorded version string fails the startsWith test for "^3", "~3"
or "3" (so e.g. "4.0.0" fails but "30.0.0" passes), and whenever either
configuration file is missing. -/
theorem checkTailwindSetup_version_sensitive (deps : String → Option String) (fs : FSys) :
    (deps "tailwindcss" = none → checkTailwindSetup deps fs = false) ∧
    (∀ version, deps "tailwindcss" = some version → isV3 version = false →
      checkTailwindSetup deps fs = false) ∧
    (FSys.isFile fs "tailwind.config.js" = false → checkTailwindSetup deps fs = false) ∧
    (FSys.isFile fs "postcss.config.js" = false → checkTailwindSetup deps fs = false) := by
  refine ⟨?_, ?_, ?_, ?_⟩ <;> unfold checkTailwindSetup
  · intro h
    rw [h]
  · intro v h hv
    rw [h]
    simp [hv]
  · intro h
    cases hd : deps "tailwindcss" <;> simp [h]
  · intro h
    cases hd : deps "tailwindcss" <;> simp [h]

/-- Witness for the amended C4: absent package, unsupported version "4.0.0",
and missing configuration each yield unsatisfied. -/
theorem checkTailwindSetup_version_sensitive_witness :
    checkTailwindSetup (fun _ => none) FSys.empty = false ∧
    checkTailwindSetup (fun n => if n = "tailwindcss" then some "4.0.0" else none)
      configuredFS = false ∧
    checkTailwindSetup deps30 FSys.empty = false :=
  ⟨(checkTailwindSetup_version_sensitive (fun _ => none) FSys.empty).1 rfl,
   (checkTailwindSetup_version_sensitive
      (fun n => if n = "tailwindcss" then some "4.0.0" else none) configuredFS).2.1
     "4.0.0" rfl (by decide),
   (checkTailwindSetup_version_sensitive deps30 FSys.empty).2.2.1 rfl⟩

end ArcUI

namespace ArcUI

/-- C5: Catalog lookup behaviour.  Every name found in the component or
template catalog yields a manifest with a non-empty file list; for a name not
in the catalog, the fetch operation reports not-found and returns with the
target file system unchanged, no shell command issued and no download
performed. -/
theorem catalog_lookup_contract (name : String) :
    (∀ c, catalogLookup name components = some c → c.files ≠ []) ∧
    (∀ t, catalogLookup name templates = some t → t.files ≠ []) ∧
    (catalogLookup name components = none →
      ∀ targetDir format remote deps confirm ok promptPath fs,
        fetchComponentFS name targetDir format remote deps confirm ok promptPath fs =
          { fs := fs, found := false, commands := [], downloads := [] }) ∧
    (catalogLookup name templates = none →
      ∀ targetDir format remote deps confirm ok promptPath fs,
        fetchTemplateFS name targetDir format remote deps confirm ok promptPath fs =
          { fs := fs, found := false, commands := [], downloads := [] }) := by
  refine ⟨?_, ?_, ?_, ?_⟩
  · intro c h
    have hm := catalogLookup_mem h
    simp [components] at hm
    rcases hm with h1 | h1 <;> subst h1 <;> simp [buttonConfig, toasterConfig]
  · intro t h
    have hm := catalogLookup_mem h
    simp [templates] at hm
    rcases hm with h1 | h1 <;> subst h1 <;>
      simp [clientSideErrorsConfig, serverSideErrorsConfig]
  · intro h targetDir format remote deps confirm ok promptPath fs
    unfold fetchComponentFS
    rw [h]
  · intro h targetDir format remote deps confirm ok promptPath fs
    unfold fetchTemplateFS
    rw [h]

/-- Witness for C5: button has files; an unknown name leaves the empty project
untouched with no commands and no downloads. -/
theorem catalog_lookup_contract_witness :
    buttonConfig.files ≠ [] ∧
    fetchComponentFS "unknown" "src/components" Format.tsx (fun _ => "") (fun _ => none)
        false false "src/styles/global.css" FSys.empty =
      { fs := FSys.empty, found := false, commands := [], downloads := [] } :=
  ⟨(catalog_lookup_contract "button").1 buttonConfig rfl,
   (catalog_lookup_contract "unknown").2.2.1 rfl "src/components" Format.tsx (fun _ => "")
     (fun _ => none) false false "src/styles/global.css" FSys.empty⟩

/-- C6: Package-manager detection is a single fixed rule.  The detection logic
written inline in setupTailwind and the copy written inline in
installDependencies compute the same manager on every file-system state, and
both agree with the spec's rule: yarn when yarn.lock exists, else pnpm when
pnpm-lock.yaml exists, else npm. -/
theorem pm_detection_single_rule (fs : FSys) :
    setupTailwindPM fs = installDependenciesPM fs ∧
    setupTailwindPM fs = specDetectPM fs ∧
    installDependenciesPM fs = specDetectPM fs :=
  ⟨rfl, rfl, rfl⟩

/-- C7: The entry-stylesheet locator short-circuits.  When no conventional path
exists the interactive branch runs, writing the directives at the prompted
path; when some conventional path exists, the locator acts on the first
existing one — a no-op when it already holds the "@tailwind" marker, a prepend
of the directive lines otherwise — and the interactive created-at outcome is
never reached. -/
theorem stylesheet_locator_short_circuits (fs : FSys) (promptPath : String) :
    ((∀ p ∈ possibleCssPaths, fs p = none) →
      createTailwindCSSFile fs promptPath =
        (FSys.write fs promptPath tailwindDirectives, CssOutcome.createdAt promptPath)) ∧
    (∀ p content, possibleCssPaths.find? (fun q => (fs q).isSome) = some p →
      fs p = some content →
      ((("@tailwind" : String).data <:+: content.data →
         createTailwindCSSFile fs promptPath = (fs, CssOutcome.alreadyPresent p)) ∧
       (¬ ("@tailwind" : String).data <:+: content.data →
         createTailwindCSSFile fs promptPath =
           (FSys.write fs p (tailwindDirectives ++ content), CssOutcome.updated p)))) ∧
    (∀ q, (∃ p ∈ possibleCssPaths, (fs p).isSome) →
      (createTailwindCSSFile fs promptPath).2 ≠ CssOutcome.createdAt q) := by
  refine ⟨?_, ?_, ?_⟩
  · intro h
    unfold createTailwindCSSFile
    rw [(updateExistingCss_eq_none fs possibleCssPaths).mpr h]
  · intro p content hfind hp
    have h := updateExistingCss_first fs possibleCssPaths p content hfind hp
    constructor
    · intro hmark
      unfold createTailwindCSSFile
      rw [h, if_pos hmark]
    · intro hmark
      unfold createTailwindCSSFile
      rw [h, if_neg hmark]
  · intro q hex habs
    obtain ⟨p, hmem, hsome⟩ := hex
    unfold createTailwindCSSFile at habs
    cases hm : updateExistingCss fs possibleCssPaths with
    | some r =>
        rw [hm] at habs
        exact updateExistingCss_not_created fs possibleCssPaths r hm q habs
    | none =>
        have hall := (updateExistingCss_eq_none fs possibleCssPaths).mp hm
        rw [hall p hmem] at hsome
        simp at hsome

/-- Witness for C7: on an empty project the prompted path is created; on a
project whose src/index.css exists without the marker, that first existing path
is updated in place and the interactive branch is not taken. -/
theorem stylesheet_locator_short_circuits_witness :
    createTailwindCSSFile FSys.empty "src/styles/global.css" =
      (FSys.write FSys.empty "src/styles/global.css" tailwindDirectives,
        CssOutcome.createdAt "src/styles/global.css") ∧
    createTailwindCSSFile cssProjectFS "styles/extra.css" =
      (FSys.write cssProjectFS "src/index.css" (tailwindDirectives ++ "body \x7b\x7d"),
        CssOutcome.updated "src/index.css") :=
  ⟨(stylesheet_locator_short_circuits FSys.empty "src/styles/global.css").1 (by decide),
   ((stylesheet_locator_short_circuits cssProjectFS "styles/extra.css").2.1
      "src/index.css" "body \x7b\x7d" (by decide) rfl).2 (by decide)⟩

/-- C8: The dependency installer shells out at most once.  On the empty package
list it returns before detecting a manager or issuing anything; on a non-empty
list it issues exactly one shell command for the detected manager, whose text
contains every requested package name, with the dev flag translated to that
manager's dev-install syntax. -/
theorem installDependencies_single_invocation (deps : List String) (dev : Bool) (fs : FSys) :
    installDependencies [] dev fs = none ∧
    (deps ≠ [] →
      ∃ cmd, installDependencies deps dev fs = some (installDependenciesPM fs, cmd) ∧
        cmd = installCommand (installDependenciesPM fs) deps dev ∧
        (∀ d ∈ deps, d.data <:+: cmd.data) ∧
        (dev = true → (devFlag (installDependenciesPM fs)).data <:+: cmd.data)) := by
  constructor
  · rfl
  · intro h
    refine ⟨installCommand (installDependenciesPM fs) deps dev, ?_, rfl, ?_, ?_⟩
    · unfold installDependencies
      rw [if_neg (by simpa using h)]
    · intro d hd
      obtain ⟨pre, hpre, _⟩ := installCommand_data (installDependenciesPM fs) deps dev
      rw [hpre]
      exact infix_of_infix_append _ (mem_data_infix_joinSpace deps d hd)
    · intro hdev
      obtain ⟨pre, hpre, hflag⟩ := installCommand_data (installDependenciesPM fs) deps dev
      obtain ⟨s, t, hst⟩ := hflag hdev
      rw [hpre, hst]
      exact ⟨s, t ++ (joinSpace deps).data, by simp⟩

/-- Witness for C8: installing clsx as a dev dependency on a project without
lockfiles issues one npm command carrying the package name and the dev flag. -/
theorem installDependencies_single_invocation_witness :
    installDependencies [] true FSys.empty = none ∧
    ∃ cmd, installDependencies ["clsx"] true FSys.empty =
        some (installDependenciesPM FSys.empty, cmd) ∧
      cmd = installCommand (installDependenciesPM FSys.empty) ["clsx"] true ∧
      (∀ d ∈ ["clsx"], d.data <:+: cmd.data) ∧
      (true = true → (devFlag (installDependenciesPM FSys.empty)).data <:+: cmd.data) :=
  ⟨(installDependencies_single_invocation ["clsx"] true FSys.empty).1,
   (installDependencies_single_invocation ["clsx"] true FSys.empty).2 (by decide)⟩

/-- C9: Template export-name derivation is safe and filename-based.  For every
template of the catalog and both formats, the format-filtered file list is
non-empty, so the source's first-element access cannot throw (the run never
crashes), and the exported symbol is the first filtered file's name before its
first dot — ClientSideErrors and ServerSideErrors for the two catalog entries. -/
theorem template_export_symbol_filename_based (name : String) (t : TemplateConfig)
    (h : catalogLookup name templates = some t) (format : Format) :
    ∃ f rest, selectFiles t.files format = f :: rest ∧
      templateExportedSymbol t format = some (classNameOfFilename f.filename) ∧
      (t = clientSideErrorsConfig → classNameOfFilename f.filename = "ClientSideErrors") ∧
      (t = serverSideErrorsConfig → classNameOfFilename f.filename = "ServerSideErrors") ∧
      ∀ targetDir remote deps confirm ok promptPath fs,
        (fetchTemplateFS name targetDir format remote deps confirm ok promptPath fs).crashed
          = false := by
  have hm := catalogLookup_mem h
  simp [templates] at hm
  have hsel : ∃ f rest, selectFiles t.files format = f :: rest ∧
      (t = clientSideErrorsConfig → classNameOfFilename f.filename = "ClientSideErrors") ∧
      (t = serverSideErrorsConfig → classNameOfFilename f.filename = "ServerSideErrors") := by
    rcases hm with h1 | h1 <;> subst h1 <;> cases format
    · exact ⟨_, _, rfl, fun _ => by decide, fun hh => absurd hh (by decide)⟩
    · exact ⟨_, _, rfl, fun _ => by decide, fun hh => absurd hh (by decide)⟩
    · exact ⟨_, _, rfl, fun hh => absurd hh.symm (by decide), fun _ => by decide⟩
    · exact ⟨_, _, rfl, fun hh => absurd hh.symm (by decide), fun _ => by decide⟩
  obtain ⟨f, rest, hfr, hcse, hsse⟩ := hsel
  refine ⟨f, rest, hfr, ?_, hcse, hsse, ?_⟩
  · simp [templateExportedSymbol, hfr]
  · intro targetDir remote deps confirm ok promptPath fs
    unfold fetchTemplateFS
    rw [h]
    simp only [hfr, List.head?_cons]

/-- Witness for C9: the clientSideErrors template in tsx format. -/
theorem template_export_symbol_filename_based_witness :
    ∃ f rest, selectFiles clientSideErrorsConfig.files Format.tsx = f :: rest ∧
      templateExportedSymbol clientSideErrorsConfig Format.tsx =
        some (classNameOfFilename f.filename) ∧
      (clientSideErrorsConfig = clientSideErrorsConfig →
        classNameOfFilename f.filename = "ClientSideErrors") ∧
      (clientSideErrorsConfig = serverSideErrorsConfig →
        classNameOfFilename f.filename = "ServerSideErrors") ∧
      ∀ targetDir remote deps confirm ok promptPath fs,
        (fetchTemplateFS "clientSideErrors" targetDir Format.tsx remote deps confirm ok
          promptPath fs).crashed = false :=
  template_export_symbol_filename_based "clientSideErrors" clientSideErrorsConfig rfl Format.tsx

/-- C10: The toast provider bounds visible toasts.  After any sequence of
addToast and removeToast dispatches, the rendered list is exactly the first
maxToasts elements of the queue, so at most maxToasts toasts render at once;
the queue is always a subsequence of the added toasts in dispatch order, and a
removal keeps the remaining toasts in their relative order (the reducer's
removal result is a sublist of the previous state). -/
theorem toast_provider_bounds_visible (actions : List ToastAction) (maxToasts : Nat) :
    visibleToasts (runToasts actions) maxToasts = (runToasts actions).take maxToasts ∧
    (visibleToasts (runToasts actions) maxToasts).length ≤ maxToasts ∧
    List.Sublist (runToasts actions) (addedToasts actions) ∧
    ∀ state id, List.Sublist (toastReducer state (ToastAction.removeToast id)) state := by
  refine ⟨rfl, ?_, ?_, ?_⟩
  · simp only [visibleToasts, List.length_take]
    exact Nat.min_le_left _ _
  · simpa using runToasts_sublist_aux actions []
  · intro state id
    exact List.filter_sublist _

end ArcUI
